import Mathlib

/-!
Verification development for the GIT-Python-Utils repository.

The repository consists of operator scripts (`git_base.py`, `git_merge.py`,
`git_checkout.py`, `git_pull.py`) that shell out to the `git` command line
tool across a list of registered projects.  This file gives a shallow
embedding of those scripts: every external command invocation is modelled by
its observable result (`CmdResult`: exit status plus captured stdout), and
each Python function of the source is translated into a Lean function over
those results.  Control flow (truthiness tests, `try`/`except`, early
`exit`, per-project loops) is translated faithfully; the filesystem and the
actual git subprocesses are abstracted into an environment that supplies
command results, which is the only sound way to model code whose behaviour
is determined by subprocess outputs.

Python-specific semantics (string truthiness, `str.splitlines`, `str.strip`,
`int(...)`, `str.split('.')`) are modelled by dedicated `py*` functions over
`List Char`, written to be kernel-computable so concrete counterexamples can
be checked by `decide`.
-/

namespace GitPyUtils

/-- Decidable equality for `Except`, used to check concrete runs of the
modelled functions by `decide`. -/
instance {ε α : Type} [DecidableEq ε] [DecidableEq α] : DecidableEq (Except ε α) := fun x y =>
  match x, y with
  | .ok a, .ok b =>
    if h : a = b then isTrue (by rw [h])
    else isFalse (fun hh => by cases hh; exact h rfl)
  | .error a, .error b =>
    if h : a = b then isTrue (by rw [h])
    else isFalse (fun hh => by cases hh; exact h rfl)
  | .ok _, .error _ => isFalse (fun hh => by cases hh)
  | .error _, .ok _ => isFalse (fun hh => by cases hh)

/-! ## Python string primitives -/

/-- Model of Python `str.strip()` (whitespace removed from both ends). -/
def pyStrip (s : String) : String :=
  String.mk ((((s.data.dropWhile Char.isWhitespace).reverse).dropWhile Char.isWhitespace).reverse)

/-- Model of Python `str.upper()` (ASCII upper-casing suffices here). -/
def pyUpper (s : String) : String :=
  String.mk (s.data.map Char.toUpper)

/-- Model of `len(s.splitlines())`: number of lines of `s`, where a trailing
newline does not open an extra empty line and the empty string has zero
lines.  (The model only treats `'\n'` as a line break, which is what the
captured git outputs contain.) -/
def pySplitlinesCount (s : String) : Nat :=
  if s.data.isEmpty then 0
  else s.data.count '\n' + (if s.data.getLast? = some '\n' then 0 else 1)

/-- Substring test on character lists: does `pat` occur inside `l`? -/
def hasSubstr (pat : List Char) : List Char → Bool
  | [] => pat.isEmpty
  | c :: rest => pat.isPrefixOf (c :: rest) || hasSubstr pat rest

/-- Model of Python `"fatal" in output`, the success test used throughout
`git_base.py`. -/
def containsFatal (s : String) : Bool :=
  hasSubstr "fatal".data s.data

/-- Model of Python `int(s)` restricted to the plain decimal numerals that
appear in this code base (no sign, no surrounding whitespace). -/
def pyInt? (s : String) : Option Nat :=
  if s.data.isEmpty then none
  else if s.data.all Char.isDigit then
    some (s.data.foldl (fun acc c => acc * 10 + (c.toNat - '0'.toNat)) 0)
  else none

/-- Helper for `pySplitDot`: split a character list at every `'.'`. -/
def splitDotAux : List Char → List Char → List (List Char)
  | [], acc => [acc.reverse]
  | c :: rest, acc =>
    if c = '.' then acc.reverse :: splitDotAux rest []
    else splitDotAux rest (c :: acc)

/-- Model of Python `s.split('.')` (keeps empty pieces, like Python). -/
def pySplitDot (s : String) : List String :=
  (splitDotAux s.data []).map String.mk

/-- Python truthiness for the two value shapes returned by the counting
helpers of `git_base.py`: an `int` is truthy iff nonzero, a `str` is truthy
iff nonempty. -/
inductive PyVal where
  | int (n : Nat)
  | str (s : String)
deriving DecidableEq

/-- Truthiness of a `PyVal`, as used in `if count_uncommitted_changes():`. -/
def PyVal.truthy : PyVal → Bool
  | .int n => n != 0
  | .str s => s != ""

/-! ## Git command adapter

Each external invocation is represented by the observable pair (exit status,
captured stdout).  `exitOk = false` means the process exited non-zero, i.e.
`subprocess.check_output` raised `CalledProcessError`. -/

/-- Observable result of one external command invocation. -/
structure CmdResult where
  exitOk : Bool
  out : String
deriving DecidableEq

/-- Mutating git operations, used to record which calls a workflow performs
for which project. -/
inductive GitOp where
  | fetchAll
  | fetch (b : String)
  | checkout (b : String)
  | pull (b : String)
  | merge (src dst : String)
  | theirsCheckout
  | stageAll
  | commit (msg : String)
  | amend (msg : String)
deriving DecidableEq

/-- Model of `get_current_branch` (git_base.py:97-103): stripped stdout of
`git rev-parse --abbrev-ref HEAD`; `none` models the uncaught
`CalledProcessError` when the command exits non-zero. -/
def get_current_branch (r : CmdResult) : Option String :=
  if r.exitOk then some (pyStrip r.out) else none

/-- Model of `fetch_branch` (git_base.py:198-208): a raised
`CalledProcessError` is caught and yields `False`; otherwise success is the
absence of `"fatal"` in the output. -/
def fetch_branch (r : CmdResult) : Bool :=
  r.exitOk && !containsFatal r.out

/-- Command results consumed by one `checkout_branch` call. -/
structure CheckoutEnv where
  checkoutRes : CmdResult
  upstreamTracked : Bool
  setUpstreamRes : CmdResult
deriving DecidableEq

/-- Model of `checkout_branch` (git_base.py:315-344).  `upstreamTracked`
models `git rev-parse --abbrev-ref branch@{u}` returning exit code 0 (run
via `subprocess.run`, which never raises).  Any `CalledProcessError` from
the `check_output` calls is caught by the surrounding `try` and yields
`False`. -/
def checkout_branch (e : CheckoutEnv) : Bool :=
  if !e.checkoutRes.exitOk then false
  else if containsFatal e.checkoutRes.out then false
  else if e.upstreamTracked then true
  else if !e.setUpstreamRes.exitOk then false
  else !containsFatal e.setUpstreamRes.out

/-- Command results consumed by one `pull_branch` call. -/
structure PullEnv where
  curRes : CmdResult
  lsRemoteRes : CmdResult
  pullRes : CmdResult
deriving DecidableEq

/-- Model of `pull_branch` (git_base.py:407-437).  The `ls-remote` guard for
branches other than `dev`/`master` uses `subprocess.run` without
`check=True`, so its `except CalledProcessError` clause can never fire and
the guard has no effect on the result; `lsRemoteRes` is therefore carried in
the environment but unused.  A non-zero exit of the `pull` itself raises
`CalledProcessError`, is caught, and yields `False`. -/
def pull_branch (branch : String) (e : PullEnv) : Bool :=
  match get_current_branch e.curRes with
  | none => false
  | some cur =>
    if cur != branch then false
    else if !e.pullRes.exitOk then false
    else !containsFatal e.pullRes.out

/-- Model of `amend_commit` (git_base.py:381-391). -/
def amend_commit (r : CmdResult) : Bool :=
  r.exitOk && !containsFatal r.out

/-- Model of `stage_all_changes` (git_base.py:394-404). -/
def stage_all_changes (r : CmdResult) : Bool :=
  r.exitOk && !containsFatal r.out

/-- Model of `count_uncommitted_changes` (git_base.py:227-247): `"ERR"` when
`git status --porcelain` exits non-zero, otherwise the number of lines of
its stdout. -/
def count_uncommitted_changes (statusRes : CmdResult) : PyVal :=
  if !statusRes.exitOk then .str "ERR"
  else .int (pySplitlinesCount statusRes.out)

/-- Model of `count_unpushed_commits` (git_base.py:250-271): `"ERR"` when
`git log --oneline @{u}..HEAD` exits non-zero, otherwise its line count. -/
def count_unpushed_commits (logRes : CmdResult) : PyVal :=
  if !logRes.exitOk then .str "ERR"
  else .int (pySplitlinesCount logRes.out)

/-- Model of `count_unpulled_commits` (git_base.py:211-224): it first runs a
plain `git fetch` (with `check=True`) and then `git rev-list --count
branch..origin/branch`; any exception is caught and yields the string
`"ERR"`; on success the function returns the stripped stdout of `rev-list
--count`, which is the decimal numeral of the count — a *string*, modelled
here as `toString n` for the counted value `n`.  `fetchOk = false` or
`count = none` model a failing command. -/
def count_unpulled_commits (fetchOk : Bool) (count : Option Nat) : String :=
  if !fetchOk then "ERR"
  else match count with
    | none => "ERR"
    | some n => toString n

/-- Model of `has_no_changes_in_working_directory` (git_base.py:274-292):
the exit code of `git status --porcelain` is ignored (`subprocess.run`
without `check`), only the stripped stdout being nonempty counts as
"changes detected". -/
def has_no_changes_in_working_directory (statusRes : CmdResult) : Bool :=
  pyStrip statusRes.out == ""

/-- Model of `has_no_commits_to_push` (git_base.py:295-312): the stripped
stdout of `git rev-list --right-only --count origin/B...B` is parsed with
`int(...)`; a parse failure raises `ValueError`, is caught, and yields
`False`; otherwise the check succeeds iff the count is zero.  `none` models
an output that `int(...)` rejects. -/
def has_no_commits_to_push (count : Option Nat) : Bool :=
  match count with
  | none => false
  | some n => n == 0

/-! ## Composite operations -/

/-- Command results consumed by one `fetch_and_checkout_and_pull_branch`
call. -/
structure FcpEnv where
  curRes1 : CmdResult
  fetchRes : CmdResult
  co : CheckoutEnv
  curRes2 : CmdResult
  pull : PullEnv
deriving DecidableEq

/-- Model of `fetch_and_checkout_and_pull_branch` (git_base.py:440-463).
The result is the returned boolean together with the list of mutating git
operations attempted; `Except.error` models the uncaught
`CalledProcessError` of `get_current_branch` (called outside any `try`),
carrying the operations attempted up to that point.  Note the source: when
the current branch differs from `branch`, it fetches and checks out and then
returns `True` at line 463 — the `pull` at line 461 runs only in the
already-on-branch case. -/
def fetch_and_checkout_and_pull_branch (branch : String) (e : FcpEnv) :
    Except (List GitOp) (Bool × List GitOp) :=
  match get_current_branch e.curRes1 with
  | none => .error []
  | some cur =>
    if cur != branch then
      if !fetch_branch e.fetchRes then .ok (false, [.fetch branch])
      else if !checkout_branch e.co then .ok (false, [.fetch branch, .checkout branch])
      else match get_current_branch e.curRes2 with
        | none => .error [.fetch branch, .checkout branch]
        | some cur2 =>
          if cur2 != branch then .ok (false, [.fetch branch, .checkout branch])
          else .ok (true, [.fetch branch, .checkout branch])
    else
      .ok (pull_branch branch e.pull, [.pull branch])

/-- Command results consumed by one
`merge_source_branch_to_destination_branch` call. -/
structure MergeEnv where
  mergeRes : CmdResult
  theirsRes : CmdResult
  addRes : CmdResult
  commitRes : CmdResult
deriving DecidableEq

/-- Commit message synthesized by the conflict fallback of
`merge_source_branch_to_destination_branch` (git_base.py:373). -/
def mergeFallbackMsg (src dst : String) : String :=
  "\"Merged " ++ src ++ " into " ++ dst ++ " and resolved conflict with " ++ src ++ " changes.\""

/-- Model of `merge_source_branch_to_destination_branch`
(git_base.py:347-378).  A non-zero exit of `git merge --no-ff` raises
`CalledProcessError`, which triggers the conflict fallback inside the
`except` clause: `checkout --theirs .`, `add .`, `commit -m msg`.  The
`check_output` calls inside the `except` clause are *not* protected by any
handler, so a non-zero exit there propagates out (modelled by
`Except.error`). -/
def merge_source_branch_to_destination_branch (src dst : String) (e : MergeEnv) :
    Except (List GitOp) (Bool × List GitOp) :=
  if e.mergeRes.exitOk then
    .ok (!containsFatal e.mergeRes.out, [.merge src dst])
  else if !e.theirsRes.exitOk then .error [.merge src dst, .theirsCheckout]
  else if containsFatal e.theirsRes.out then .ok (false, [.merge src dst, .theirsCheckout])
  else if !e.addRes.exitOk then .error [.merge src dst, .theirsCheckout, .stageAll]
  else if containsFatal e.addRes.out then .ok (false, [.merge src dst, .theirsCheckout, .stageAll])
  else if !e.commitRes.exitOk then
    .error [.merge src dst, .theirsCheckout, .stageAll, .commit (mergeFallbackMsg src dst)]
  else
    .ok (!containsFatal e.commitRes.out,
         [.merge src dst, .theirsCheckout, .stageAll, .commit (mergeFallbackMsg src dst)])

/-- Accumulated outcome of a per-project batch loop: ordered success and
failure lists, the mutating operations performed (tagged by project), and
whether an uncaught exception aborted the loop. -/
structure MutateResult where
  successful : List String
  failed : List String
  trace : List (String × GitOp)
  crashed : Bool
deriving DecidableEq

/-- Model of the per-project loop of `git_checkout.py` (lines 16-22): each
project runs `fetch_and_checkout_and_pull_branch` on the destination branch
and is appended to `successful` or `failed`; an uncaught exception aborts
the whole loop. -/
def gitCheckoutLoop (env : String → FcpEnv) (dst : String) :
    List String → MutateResult
  | [] => ⟨[], [], [], false⟩
  | p :: rest =>
    match fetch_and_checkout_and_pull_branch dst (env p) with
    | .error t => ⟨[], [], t.map (fun o => (p, o)), true⟩
    | .ok (ok, t) =>
      let r := gitCheckoutLoop env dst rest
      if ok then ⟨p :: r.successful, r.failed, t.map (fun o => (p, o)) ++ r.trace, r.crashed⟩
      else ⟨r.successful, p :: r.failed, t.map (fun o => (p, o)) ++ r.trace, r.crashed⟩

/-! ## Merge workflow (`git_merge.py`)

The script has three per-project phases after `init`:
pre-check loop (lines 16-32, any truthy count calls `exit(0)`),
confirmation and branch prompts (lines 34-42),
verification loop plus exit-on-failure (lines 47-69),
mutation loop (lines 71-102), final report. -/

/-- Environment of command results for one project inside the merge
workflow.  `updateRes` is the outcome of `update_artifact_versions`
(modelled in detail per file further below): the Python function returns
`True` on every path that returns, so `Except.error` models its uncaught
exceptions.  `versionRes` likewise models `get_first_artifact_version`,
whose XML parsing can raise. -/
structure ProjEnv where
  statusRes : CmdResult
  unpushedLogRes : CmdResult
  unpulledFetchOk : Bool
  unpulledCount : Option Nat
  pushCount : String → Option Nat
  fcpSrc : FcpEnv
  fcpDst : FcpEnv
  merge : MergeEnv
  updateRes : Except Unit Bool
  stageRes : CmdResult
  versionRes : Except Unit String
  amendRes : CmdResult

/-- Reason the merge workflow pre-check loop called `exit(0)`. -/
inductive PreExit where
  | uncommitted (p : String)
  | unpushed (p : String)
  | unpulled (p : String)
deriving DecidableEq

/-- Model of the initial pre-check loop of `git_merge.py` (lines 16-32):
for each project in order, `exit(0)` on a truthy uncommitted count, then on
a truthy unpushed count, then on a truthy unpulled count.  The
unpulled-count helper performs a plain `git fetch` first, which is recorded
in the trace.  Returns the exit reason (if any) and the operations
performed. -/
def mergePreCheck (env : String → ProjEnv) :
    List String → Option PreExit × List (String × GitOp)
  | [] => (none, [])
  | p :: rest =>
    let e := env p
    if (count_uncommitted_changes e.statusRes).truthy then (some (.uncommitted p), [])
    else if (count_unpushed_commits e.unpushedLogRes).truthy then (some (.unpushed p), [])
    else if (count_unpulled_commits e.unpulledFetchOk e.unpulledCount) != "" then
      (some (.unpulled p), [(p, .fetchAll)])
    else
      let r := mergePreCheck env rest
      (r.1, (p, .fetchAll) :: r.2)

/-- Model of the verification loop of `git_merge.py` (lines 47-60): the
projects appended to `failed`, in order; a failing check `continue`s to the
next project. -/
def mergeVerifyFailed (env : String → ProjEnv) (src dst : String) :
    List String → List String
  | [] => []
  | p :: rest =>
    let e := env p
    if !has_no_changes_in_working_directory e.statusRes then
      p :: mergeVerifyFailed env src dst rest
    else if !has_no_commits_to_push (e.pushCount src) then
      p :: mergeVerifyFailed env src dst rest
    else if !has_no_commits_to_push (e.pushCount dst) then
      p :: mergeVerifyFailed env src dst rest
    else mergeVerifyFailed env src dst rest

/-- Model of the amend step of the merge mutation loop (git_merge.py
lines 95-100): read the first artifact version (XML parse may raise), build
the commit message, amend. -/
def mergeAmendStep (src dst ticket : String) (e : ProjEnv) (t : List GitOp) :
    Except (List GitOp) (Bool × List GitOp) :=
  match e.versionRes with
  | .error () => .error t
  | .ok v =>
    let msg := ticket ++ " Merge '" ++ src ++ "' to '" ++ dst ++ "' (" ++ v ++ ")"
    .ok (amend_commit e.amendRes, t ++ [.amend msg])

/-- Model of the version-update-and-stage step of the merge mutation loop
(git_merge.py lines 86-93), executed unless `--skipversion` was given. -/
def mergeVersionStep (src dst ticket : String) (skipv : Bool) (e : ProjEnv) (t : List GitOp) :
    Except (List GitOp) (Bool × List GitOp) :=
  if !skipv then
    match e.updateRes with
    | .error () => .error t
    | .ok b =>
      if !b then .ok (false, t)
      else if !stage_all_changes e.stageRes then .ok (false, t ++ [.stageAll])
      else mergeAmendStep src dst ticket e (t ++ [.stageAll])
  else mergeAmendStep src dst ticket e t

/-- Model of one project iteration of the merge mutation loop
(git_merge.py lines 71-102): sync source, sync destination, merge, optional
version bump and stage, amend.  `.ok (false, t)` is a recorded failure
(`failed.append` + `continue`), `.error t` an uncaught exception. -/
def mergeProjectRun (src dst ticket : String) (skipv : Bool) (e : ProjEnv) :
    Except (List GitOp) (Bool × List GitOp) :=
  match fetch_and_checkout_and_pull_branch src e.fcpSrc with
  | .error t => .error t
  | .ok (ok1, t1) =>
    if !ok1 then .ok (false, t1)
    else match fetch_and_checkout_and_pull_branch dst e.fcpDst with
    | .error t => .error (t1 ++ t)
    | .ok (ok2, t2) =>
      if !ok2 then .ok (false, t1 ++ t2)
      else match merge_source_branch_to_destination_branch src dst e.merge with
      | .error t => .error (t1 ++ t2 ++ t)
      | .ok (ok3, t3) =>
        if !ok3 then .ok (false, t1 ++ t2 ++ t3)
        else mergeVersionStep src dst ticket skipv e (t1 ++ t2 ++ t3)

/-- Model of the merge mutation loop over all projects. -/
def mergeMutate (env : String → ProjEnv) (src dst ticket : String) (skipv : Bool) :
    List String → MutateResult
  | [] => ⟨[], [], [], false⟩
  | p :: rest =>
    match mergeProjectRun src dst ticket skipv (env p) with
    | .error t => ⟨[], [], t.map (fun o => (p, o)), true⟩
    | .ok (ok, t) =>
      let r := mergeMutate env src dst ticket skipv rest
      if ok then ⟨p :: r.successful, r.failed, t.map (fun o => (p, o)) ++ r.trace, r.crashed⟩
      else ⟨r.successful, p :: r.failed, t.map (fun o => (p, o)) ++ r.trace, r.crashed⟩

/-- Overall outcome of a run of `git_merge.py`. -/
inductive MergeOutcome where
  | exitUncommitted (p : String)
  | exitUnpushed (p : String)
  | exitUnpulled (p : String)
  | declined
  | exitVerification (failed : List String)
  | crashed (successful failed : List String)
  | finished (successful failed : List String)
deriving DecidableEq

/-- Conversion of a pre-check exit reason into the overall outcome. -/
def PreExit.toOutcome : PreExit → MergeOutcome
  | .uncommitted p => .exitUncommitted p
  | .unpushed p => .exitUnpushed p
  | .unpulled p => .exitUnpulled p

/-- Model of `git_merge.py` from line 47 to the end: verification loop, the
`exit(0)` when the verification `failed` list is nonempty (lines 62-69),
otherwise the mutation loop.  The verification `failed` list carries over
into the mutation loop's list, as in the source (both use the same
variable). -/
def gitMergeMainPhase (projects : List String) (env : String → ProjEnv)
    (src dst ticket : String) (skipv : Bool) :
    MergeOutcome × List (String × GitOp) :=
  let failed := mergeVerifyFailed env src dst projects
  if failed.length != 0 then (.exitVerification failed, [])
  else
    let r := mergeMutate env src dst ticket skipv projects
    (if r.crashed then .crashed r.successful (failed ++ r.failed)
     else .finished r.successful (failed ++ r.failed), r.trace)

/-- Model of the whole `git_merge.py` script after `init` (lines 16-104):
pre-check loop, confirmation prompt (`exit(0)` unless the stripped
upper-cased answer is `"Y"`), then verification and mutation phases. -/
def gitMerge (projects : List String) (env : String → ProjEnv)
    (continueAnswer src dst ticket : String) (skipv : Bool) :
    MergeOutcome × List (String × GitOp) :=
  match mergePreCheck env projects with
  | (some ex, t) => (ex.toOutcome, t)
  | (none, t) =>
    if pyUpper (pyStrip continueAnswer) != "Y" then (.declined, t)
    else
      let r := gitMergeMainPhase projects env src dst ticket skipv
      (r.1, t ++ r.2)

/-! ## Status aggregator (`get_project_git_meta`, `print_version_status`) -/

/-- Parsed content of one discovered `pom.xml`, as extracted by the
`ElementTree` lookups in `git_base.py`: `version` is the text of the
namespaced `version` element (when present), `parentVersion` the text of
`parent/version`, `artifactId` the text of `artifactId`.  `none` models an
absent element; element texts are assumed present when the element is. -/
structure PomFile where
  path : String
  version : Option String
  parentVersion : Option String
  artifactId : Option String
deriving DecidableEq

/-- One tuple appended to `artifact_versions` by `get_project_git_meta`
(git_base.py:542-550). -/
structure Row where
  artifactId : String
  version : String
  uncommitted : String
  unpushed : String
  unpulled : String
  branch : String
  latestCommitDate : String
  pom : String
deriving DecidableEq

/-- Model of `strip_project_dir` (git_base.py:76-77): three chained
`str.replace` calls removing the projects directory. -/
def strip_project_dir (projectsDir repoDir : String) : String :=
  ((repoDir.replace (projectsDir ++ "\\") "").replace (projectsDir ++ "/") "").replace projectsDir ""

/-- Branch truncation applied to the first row of a project
(git_base.py:537). -/
def truncBranch (b : String) : String :=
  if b.data.length ≤ 18 then b else String.mk (b.data.take 18) ++ "..."

/-- Model of one iteration of the per-pom loop of `get_project_git_meta`
(git_base.py:499-551).  `none` stands for the `''` sentinel appended when no
pom was found.  For a real pom the code always reaches the `artifactId`
lookup (the initial `version_tag_text = 'N/A'` is never `None`), and
`artifact_id.text` on an absent element raises `AttributeError`, modelled by
`Except.error`. -/
def metaRow (pd project branch0 nUnc nUnp nUnl date : String) (first : Bool) :
    Option PomFile → Except Unit Row
  | none =>
    .ok { artifactId := project
          version := "N/A"
          uncommitted := if first then nUnc else ""
          unpushed := if first then nUnp else ""
          unpulled := if first then nUnl else ""
          branch := if first then truncBranch branch0 else ""
          latestCommitDate := date
          pom := strip_project_dir pd "" }
  | some pf =>
    let vt : String :=
      match pf.version with
      | some v => v
      | none =>
        match pf.parentVersion with
        | some v => v ++ " (p)"
        | none => "N/A"
    match pf.artifactId with
    | none => .error ()
    | some aid =>
      .ok { artifactId := (if first then "" else "-> ") ++ aid
            version := vt
            uncommitted := if first then nUnc else ""
            unpushed := if first then nUnp else ""
            unpulled := if first then nUnl else ""
            branch := if first then truncBranch branch0 else ""
            latestCommitDate := date
            pom := strip_project_dir pd pf.path }

/-- Per-pom loop of `get_project_git_meta`, threading the `first` flag. -/
def metaRows (pd project branch0 nUnc nUnp nUnl date : String) :
    Bool → List (Option PomFile) → Except Unit (List Row)
  | _, [] => .ok []
  | first, pf :: rest =>
    match metaRow pd project branch0 nUnc nUnp nUnl date first pf with
    | .error e => .error e
    | .ok r =>
      match metaRows pd project branch0 nUnc nUnp nUnl date false rest with
      | .error e => .error e
      | .ok rs => .ok (r :: rs)

/-- Model of `get_project_git_meta` (git_base.py:475-554), taking the
already-gathered status strings (`str(count_uncommitted_changes())` etc.)
and the discovered pom contents as inputs.  An empty pom list gets the `''`
sentinel appended (lines 494-496), producing exactly one fallback row. -/
def get_project_git_meta (pd project branch0 nUnc nUnp nUnl date : String)
    (poms : List PomFile) : Except Unit (List Row) :=
  let pomList : List (Option PomFile) :=
    if poms.length < 1 then [none] else poms.map some
  metaRows pd project branch0 nUnc nUnp nUnl date true pomList

/-- Display adjustment of `print_version_status` (git_base.py:158-164): for
every row of a project after the first, the latest-commit-date and branch
columns are blanked. -/
def displayRows (rows : List Row) : List Row :=
  match rows with
  | [] => []
  | r :: rest => r :: rest.map (fun x => { x with branch := "", latestCommitDate := "" })

/-! ## Manifest version editor (`update_artifact_versions`)

The dev-branch rewrite runs `re.sub(pattern, update_version, content)` where
`pattern` is the version token with `'.'` escaped.  For the tokens this code
reads from pom files (digits, dots, and the `-SNAPSHOT` suffix) the escaped
pattern matches exactly the literal token string, so the substitution is
modelled by a literal leftmost non-overlapping scanner.  The scanner is
written with an explicit fuel argument (`fuel = length of the input`
suffices, since every step consumes at least one character) so that it is
structurally recursive and kernel-computable. -/

/-- Split `s` at every leftmost non-overlapping occurrence of `pat`,
returning the pieces between occurrences.  Joining the pieces back with
`pat` restores `s` (proved below). -/
def splitLitAux (pat : List Char) : Nat → List Char → List (List Char)
  | _, [] => [[]]
  | 0, s => [s]
  | fuel+1, c :: rest =>
    if pat.isPrefixOf (c :: rest) then
      [] :: splitLitAux pat fuel ((c :: rest).drop pat.length)
    else
      match splitLitAux pat fuel rest with
      | [] => [[c]]
      | piece :: pieces => (c :: piece) :: pieces

/-- String-level wrapper for `splitLitAux` with sufficient fuel. -/
def splitLit (pat s : String) : List (List Char) :=
  splitLitAux pat.data s.data.length s.data

/-- Join pieces with a separator (own definition, to keep full control over
its equations). -/
def joinWith (sep : List Char) : List (List Char) → List Char
  | [] => []
  | [l] => l
  | l :: ls => l ++ sep ++ joinWith sep ls

/-- Replace every leftmost non-overlapping occurrence of `pat` in `s` by
`rep`: the model of `re.sub` with a literal pattern and a constant
replacement. -/
def replaceAllLit (pat rep s : String) : String :=
  String.mk (joinWith rep.data (splitLit pat s))

/-- Model of `re.sub(pattern, f, content)` with a literal pattern: every
match equals `pat` itself, so the callback is only ever applied to `pat`;
when there is no match the callback never runs and the content is returned
unchanged; a callback exception (`Except.error`) propagates. -/
def reSubLit (pat : String) (f : String → Except Unit String) (s : String) :
    Except Unit String :=
  let pieces := splitLit pat s
  if pieces.length ≤ 1 then .ok s
  else match f pat with
    | .error () => .error ()
    | .ok rep => .ok (String.mk (joinWith rep.data pieces))

/-- Model of the `update_version` callback of the dev branch
(git_base.py:594-599): `major, minor = map(int, existing.split('.'))`
requires exactly two dot-separated decimal pieces and raises `ValueError`
otherwise (modelled by `Except.error`); on success the replacement is
`f"{major}.{minor + 1}-SNAPSHOT"`. -/
def parseMajorMinor (s : String) : Option (Nat × Nat) :=
  match pySplitDot s with
  | [a, b] =>
    match pyInt? a, pyInt? b with
    | some M, some m => some (M, m)
    | _, _ => none
  | _ => none

/-- Dev-branch replacement callback. -/
def update_version_dev (s : String) : Except Unit String :=
  match parseMajorMinor s with
  | some (M, m) => .ok (toString M ++ "." ++ toString (m + 1) ++ "-SNAPSHOT")
  | none => .error ()

/-- Version token read from a pom by the dev branch of
`update_artifact_versions` (git_base.py:572-586): the `version` element
text, else the `parent/version` element text, else nothing. -/
def devPomToken (pf : PomFile) : Option String :=
  match pf.version with
  | some v => some v
  | none => pf.parentVersion

/-- Dev-branch per-file rewrite of `update_artifact_versions`
(git_base.py:570-604): when no version token was read the file is not
touched; otherwise the whole file content is rewritten by
`re.sub(escaped token, update_version, content)`. -/
def update_artifact_versions_dev_file (pf : PomFile) (content : String) :
    Except Unit String :=
  match devPomToken pf with
  | none => .ok content
  | some tok => reSubLit tok update_version_dev content

/-- Leftmost match of the master-branch regex `\d+\.\d+-SNAPSHOT` at the
head of `s`: on success returns the numeric part (the match with
`-SNAPSHOT` removed, as produced by the master `update_version` callback)
and the remainder after the match.  Because a digit run can only end at a
non-digit, the greedy `\d+` runs of the Python regex admit no backtracking
here, so this direct scanner is faithful. -/
def snapMatch (s : List Char) : Option (List Char × List Char) :=
  let d1 := s.takeWhile Char.isDigit
  if d1.isEmpty then none
  else
    match s.drop d1.length with
    | '.' :: s2 =>
      let d2 := s2.takeWhile Char.isDigit
      if d2.isEmpty then none
      else
        let s3 := s2.drop d2.length
        if ("-SNAPSHOT".data).isPrefixOf s3 then
          some (d1 ++ '.' :: d2, s3.drop 9)
        else none
    | _ => none

/-- Fuel-indexed scanner applying `snapMatch` at every position, replacing
each match by its numeric part (`fuel = length of the input` suffices). -/
def stripSnapAux : Nat → List Char → List Char
  | 0, s => s
  | _+1, [] => []
  | fuel+1, c :: rest =>
    match snapMatch (c :: rest) with
    | some (numPart, after) => numPart ++ stripSnapAux fuel after
    | none => c :: stripSnapAux fuel rest

/-- Master-branch per-file rewrite of `update_artifact_versions`
(git_base.py:606-623): `re.sub(r'\d+\.\d+-SNAPSHOT', update_version,
content)` where the callback strips the `-SNAPSHOT` suffix of the match. -/
def update_artifact_versions_master_file (content : String) : String :=
  String.mk (stripSnapAux content.data.length content.data)

/-- Per-file behaviour of `update_artifact_versions` (git_base.py:557-625)
as a function of the current branch: the dev rewrite on `"dev"`, the
snapshot strip on `"master"`, and no change on any other branch (the two
`if` bodies are both skipped). -/
def update_artifact_versions_file (branch : String) (pf : PomFile) (content : String) :
    Except Unit String :=
  if branch = "dev" then update_artifact_versions_dev_file pf content
  else if branch = "master" then .ok (update_artifact_versions_master_file content)
  else .ok content

/-- Token matched by the master-branch regex `\d+\.\d+-SNAPSHOT` for a
concrete major/minor pair. -/
def snapTok (M m : Nat) : String :=
  toString M ++ "." ++ toString m ++ "-SNAPSHOT"

/-- Replacement produced by the master-branch callback for such a token:
the match with its `-SNAPSHOT` suffix removed. -/
def snapNum (M m : Nat) : String :=
  toString M ++ "." ++ toString m

/-- General shape of a file content containing arbitrarily many
`<major>.<minor>-SNAPSHOT` occurrences: an alternation of literal segments
and tokens, ending in a final segment. -/
def snapInterleave : List (String × Nat × Nat) → String → String
  | [], last => last
  | (seg, M, m) :: rest, last => seg ++ snapTok M m ++ snapInterleave rest last

/-- The same content with the `-SNAPSHOT` suffix stripped from every
occurrence. -/
def snapInterleaveStripped : List (String × Nat × Nat) → String → String
  | [], last => last
  | (seg, M, m) :: rest, last => seg ++ snapNum M m ++ snapInterleaveStripped rest last

/-! ## Supporting lemmas -/

/-- Helper: `Nat.toDigitsCore` never shrinks its accumulator. -/
theorem toDigitsCore_length_le (b : Nat) :
    ∀ (f n : Nat) (ds : List Char), ds.length ≤ (Nat.toDigitsCore b f n ds).length := by
  intro f
  induction f with
  | zero => intro n ds; simp [Nat.toDigitsCore]
  | succ f ih =>
    intro n ds
    simp only [Nat.toDigitsCore]
    split
    · simp
    · have := ih (n / b) (Nat.digitChar (n % b) :: ds)
      simp only [List.length_cons] at this
      omega

/-- Helper: with positive fuel, `Nat.toDigitsCore` produces at least one
digit. -/
theorem toDigitsCore_ne_nil (b f n : Nat) (ds : List Char) :
    Nat.toDigitsCore b (f + 1) n ds ≠ [] := by
  simp only [Nat.toDigitsCore]
  split
  · simp
  · intro h
    have hle := toDigitsCore_length_le b f (n / b) (Nat.digitChar (n % b) :: ds)
    rw [h] at hle
    simp at hle

/-- Decimal representation of a natural number is never the empty string
(this is why `if count_unpulled_commits():` is always taken when the count
command succeeds, even for a count of `0`). -/
theorem natToString_ne_empty (n : Nat) : toString n ≠ "" := by
  show Nat.repr n ≠ ""
  unfold Nat.repr
  intro h
  have hdata := congrArg String.data h
  simp only [List.asString] at hdata
  exact toDigitsCore_ne_nil 10 n n [] hdata

/-- A string with a nonempty strip is nonempty. -/
theorem data_ne_nil_of_pyStrip_ne_empty {s : String} (h : pyStrip s ≠ "") :
    s.data ≠ [] := by
  intro hnil
  apply h
  unfold pyStrip
  rw [hnil]
  rfl

/-- A nonempty captured output has a positive `splitlines` count. -/
theorem pySplitlinesCount_ne_zero {s : String} (h : s.data ≠ []) :
    pySplitlinesCount s ≠ 0 := by
  unfold pySplitlinesCount
  rw [if_neg (by simpa using h)]
  by_cases hl : s.data.getLast? = some '\n'
  · rw [if_pos hl]
    have hmem : '\n' ∈ s.data := List.mem_of_getLast?_eq_some hl
    have := List.count_pos_iff.mpr hmem
    omega
  · rw [if_neg hl]
    omega

/-- A dirty working tree (nonempty stripped `git status --porcelain`
output) makes `count_uncommitted_changes` truthy, whatever the exit code. -/
theorem count_uncommitted_truthy_of_dirty {r : CmdResult}
    (h : pyStrip r.out ≠ "") : (count_uncommitted_changes r).truthy = true := by
  unfold count_uncommitted_changes
  by_cases hok : r.exitOk
  · rw [if_neg (by simp [hok])]
    have := pySplitlinesCount_ne_zero (data_ne_nil_of_pyStrip_ne_empty h)
    simp [PyVal.truthy, this]
  · rw [if_pos (by simp [hok])]
    decide

/-- Helper: `splitLitAux` never returns an empty piece list. -/
theorem splitLitAux_ne_nil (pat : List Char) :
    ∀ (fuel : Nat) (s : List Char), splitLitAux pat fuel s ≠ [] := by
  intro fuel s
  match fuel, s with
  | _, [] => simp [splitLitAux]
  | 0, c :: rest => simp [splitLitAux]
  | fuel + 1, c :: rest =>
    simp only [splitLitAux]
    split
    · simp
    · split <;> simp

/-- Equation: joining two or more pieces. -/
theorem joinWith_pair (sep a b : List Char) (cs : List (List Char)) :
    joinWith sep (a :: b :: cs) = a ++ sep ++ joinWith sep (b :: cs) := by
  rfl

/-- Pushing a head character out of the first piece. -/
theorem joinWith_cons_head (sep : List Char) (c : Char) (piece : List Char)
    (pieces : List (List Char)) :
    joinWith sep ((c :: piece) :: pieces) = c :: joinWith sep (piece :: pieces) := by
  cases pieces with
  | nil => rfl
  | cons b bs => rw [joinWith_pair, joinWith_pair]; simp

/-- Anchor lemma: joining the split pieces with the pattern itself restores
the input, which is what makes `splitLitAux` a correct occurrence
splitter. -/
theorem joinWith_splitLitAux (pat : List Char) (hp : pat ≠ []) :
    ∀ (fuel : Nat) (s : List Char), s.length ≤ fuel →
      joinWith pat (splitLitAux pat fuel s) = s := by
  intro fuel
  induction fuel with
  | zero =>
    intro s hs
    have : s = [] := List.length_eq_zero.mp (Nat.le_zero.mp hs)
    subst this
    rfl
  | succ f ih =>
    intro s hs
    match s with
    | [] => rfl
    | c :: rest =>
      simp only [splitLitAux]
      by_cases hpre : pat.isPrefixOf (c :: rest)
      · rw [if_pos hpre]
        obtain ⟨t, ht⟩ := List.isPrefixOf_iff_prefix.mp hpre
        have hdrop : (c :: rest).drop pat.length = t := by
          rw [← ht]; exact List.drop_left pat t
        rw [hdrop]
        have hlen : t.length ≤ f := by
          have hlens := congrArg List.length ht
          simp [List.length_append] at hlens
          have hpat : 0 < pat.length := List.length_pos.mpr hp
          simp at hs
          omega
        have hrec := ih t hlen
        match hsp : splitLitAux pat f t with
        | [] => exact absurd hsp (splitLitAux_ne_nil pat f t)
        | b :: bs =>
          rw [hsp] at hrec
          rw [joinWith_pair]
          simp only [List.nil_append]
          rw [hrec, ht]
      · rw [if_neg hpre]
        have hrec := ih rest (by simp at hs; omega)
        match hsp : splitLitAux pat f rest with
        | [] => exact absurd hsp (splitLitAux_ne_nil pat f rest)
        | piece :: pieces =>
          rw [hsp] at hrec
          rw [joinWith_cons_head, hrec]

/-- A split with at most one piece is exactly the whole input. -/
theorem splitLit_single {pat s : String} (hp : pat.data ≠ [])
    (h : (splitLit pat s).length ≤ 1) : splitLit pat s = [s.data] := by
  match hsp : splitLit pat s with
  | [] => exact absurd hsp (splitLitAux_ne_nil pat.data s.data.length s.data)
  | [l] =>
    have hAnchor := joinWith_splitLitAux pat.data hp s.data.length s.data (Nat.le_refl _)
    unfold splitLit at hsp
    rw [hsp] at hAnchor
    have : l = s.data := hAnchor
    rw [this]
  | a :: b :: cs =>
    rw [hsp] at h
    simp at h

/-- Evaluation of the literal `re.sub` model with a succeeding constant
callback: every occurrence is replaced. -/
theorem reSubLit_const (pat rep s : String) (f : String → Except Unit String)
    (hp : pat.data ≠ []) (hf : f pat = .ok rep) :
    reSubLit pat f s = .ok (replaceAllLit pat rep s) := by
  unfold reSubLit replaceAllLit
  by_cases h : (splitLit pat s).length ≤ 1
  · rw [if_pos h, splitLit_single hp h]
    show _ = Except.ok (String.mk (joinWith rep.data [s.data]))
    rfl
  · rw [if_neg h, hf]

/-- Evaluation of the literal `re.sub` model with a failing callback and at
least one occurrence: the exception propagates. -/
theorem reSubLit_err (pat s : String) (f : String → Except Unit String)
    (hf : f pat = .error ()) (h : 1 < (splitLit pat s).length) :
    reSubLit pat f s = .error () := by
  unfold reSubLit
  rw [if_neg (by omega), hf]

/-- A string is empty iff its character list is. -/
theorem data_eq_nil_iff (s : String) : s.data = [] ↔ s = "" := by
  cases s with
  | mk l =>
    constructor
    · intro h
      have hl : l = [] := h
      subst hl
      rfl
    · intro h
      rw [h]

/-- Concatenation of strings concatenates their character lists. -/
theorem str_data_append (a b : String) : (a ++ b).data = a.data ++ b.data := rfl

/-- Helper: `Nat.digitChar` of a value below ten is a digit character. -/
theorem digitChar_isDigit {k : Nat} (hk : k < 10) : (Nat.digitChar k).isDigit = true := by
  interval_cases k <;> decide

/-- Helper: `Nat.toDigitsCore` at base ten only appends digit characters. -/
theorem toDigitsCore_all_digits :
    ∀ (f n : Nat) (ds : List Char), (∀ c ∈ ds, c.isDigit = true) →
      ∀ c ∈ Nat.toDigitsCore 10 f n ds, c.isDigit = true := by
  intro f
  induction f with
  | zero => intro n ds h; simpa [Nat.toDigitsCore] using h
  | succ f ih =>
    intro n ds h
    simp only [Nat.toDigitsCore]
    split
    · intro c hc
      rcases List.mem_cons.mp hc with rfl | hc
      · exact digitChar_isDigit (Nat.mod_lt n (by omega))
      · exact h c hc
    · apply ih
      intro c hc
      rcases List.mem_cons.mp hc with rfl | hc
      · exact digitChar_isDigit (Nat.mod_lt n (by omega))
      · exact h c hc

/-- Every character of the decimal representation of a natural number is a
digit. -/
theorem natRepr_all_digits (n : Nat) : ∀ c ∈ (toString n).data, c.isDigit = true := by
  intro c hc
  have hrepr : (toString n).data = Nat.toDigits 10 n := rfl
  rw [hrepr] at hc
  exact toDigitsCore_all_digits (n + 1) n [] (by simp) c hc

/-- The decimal representation of a natural number is a nonempty character
list. -/
theorem natRepr_data_ne_nil (n : Nat) : (toString n).data ≠ [] := fun h =>
  natToString_ne_empty n ((data_eq_nil_iff _).mp h)

/-- Character-list form of the master-branch token. -/
theorem snapTok_data (M m : Nat) :
    (snapTok M m).data
      = (toString M).data ++ '.' :: ((toString m).data ++ "-SNAPSHOT".data) := by
  simp [snapTok, str_data_append, List.append_assoc]

/-- Character-list form of the stripped master-branch token. -/
theorem snapNum_data (M m : Nat) :
    (snapNum M m).data = (toString M).data ++ '.' :: (toString m).data := by
  simp [snapNum, str_data_append]

/-- At the head of a `<major>.<minor>-SNAPSHOT` token the master-branch
scanner matches exactly the token, emitting the match with its `-SNAPSHOT`
suffix removed and leaving precisely the remainder of the content: the
greedy digit runs stop at `'.'` and `'-'`, whatever follows the token. -/
theorem snapMatch_at_tok (M m : Nat) (post : List Char) :
    snapMatch ((snapTok M m).data ++ post) = some ((snapNum M m).data, post) := by
  have hM := natRepr_all_digits M
  have hm := natRepr_all_digits m
  have hMne : (toString M).data ≠ [] := natRepr_data_ne_nil M
  have hmne : (toString m).data ≠ [] := natRepr_data_ne_nil m
  rw [snapTok_data]
  have hs : ((toString M).data ++ '.' :: ((toString m).data ++ "-SNAPSHOT".data)) ++ post
      = (toString M).data ++ '.' :: ((toString m).data ++ ("-SNAPSHOT".data ++ post)) := by
    simp [List.append_assoc]
  rw [hs]
  have h1 : ((toString M).data
        ++ '.' :: ((toString m).data ++ ("-SNAPSHOT".data ++ post))).takeWhile Char.isDigit
      = (toString M).data := by
    rw [List.takeWhile_append_of_pos hM]
    rw [List.takeWhile_cons_of_neg (by decide)]
    simp
  have h2 : (toString M).data.isEmpty = false := by
    cases hA : (toString M).data with
    | nil => exact absurd hA hMne
    | cons a l => rfl
  have h3 : ((toString M).data
        ++ '.' :: ((toString m).data ++ ("-SNAPSHOT".data ++ post))).drop
          (toString M).data.length
      = '.' :: ((toString m).data ++ ("-SNAPSHOT".data ++ post)) := List.drop_left _ _
  have hS9 : "-SNAPSHOT".data = '-' :: "SNAPSHOT".data := rfl
  have h4 : ((toString m).data ++ ("-SNAPSHOT".data ++ post)).takeWhile Char.isDigit
      = (toString m).data := by
    rw [List.takeWhile_append_of_pos hm, hS9]
    rw [List.cons_append, List.takeWhile_cons_of_neg (by decide)]
    simp
  have h5 : (toString m).data.isEmpty = false := by
    cases hA : (toString m).data with
    | nil => exact absurd hA hmne
    | cons a l => rfl
  have h6 : ((toString m).data ++ ("-SNAPSHOT".data ++ post)).drop (toString m).data.length
      = "-SNAPSHOT".data ++ post := List.drop_left _ _
  have h7 : ("-SNAPSHOT".data).isPrefixOf ("-SNAPSHOT".data ++ post) = true :=
    List.isPrefixOf_iff_prefix.mpr ⟨post, rfl⟩
  have h8 : ("-SNAPSHOT".data ++ post).drop 9 = post := by
    have h9 : ("-SNAPSHOT".data).length = 9 := rfl
    rw [← h9]
    exact List.drop_left _ _
  simp only [snapMatch, h1, h2, h3, h4, h5, h6, h7, h8, Bool.false_eq_true, if_false, if_true]
  rw [snapNum_data]

/-- The master-branch scanner never matches at a non-digit character. -/
theorem snapMatch_cons_nodigit {c : Char} (hc : c.isDigit = false) (rest : List Char) :
    snapMatch (c :: rest) = none := by
  simp [snapMatch, List.takeWhile_cons, hc]

/-- Let-free unfolding of `snapMatch`, for case analysis. -/
theorem snapMatch_eq (s : List Char) :
    snapMatch s
      = if (s.takeWhile Char.isDigit).isEmpty then none
        else
          match s.drop (s.takeWhile Char.isDigit).length with
          | '.' :: s2 =>
            if (s2.takeWhile Char.isDigit).isEmpty then none
            else
              if ("-SNAPSHOT".data).isPrefixOf (s2.drop (s2.takeWhile Char.isDigit).length)
              then
                some (s.takeWhile Char.isDigit ++ '.' :: s2.takeWhile Char.isDigit,
                      (s2.drop (s2.takeWhile Char.isDigit).length).drop 9)
              else none
          | _ => none := rfl

/-- A successful match of the master-branch scanner strictly consumes
input. -/
theorem snapMatch_after_lt (s t after : List Char) (h : snapMatch s = some (t, after)) :
    after.length < s.length := by
  rw [snapMatch_eq] at h
  split at h
  · exact absurd h (by simp)
  · rename_i h1
    split at h
    · rename_i s2 heq
      split at h
      · exact absurd h (by simp)
      · split at h
        · have hafter : after = (s2.drop (s2.takeWhile Char.isDigit).length).drop 9 :=
            (congrArg Prod.snd (Option.some.inj h)).symm
          have hd1pos : 0 < (s.takeWhile Char.isDigit).length := by
            cases hA : s.takeWhile Char.isDigit with
            | nil => rw [hA] at h1; exact absurd rfl h1
            | cons a l => simp
          have hd1le : (s.takeWhile Char.isDigit).length ≤ s.length :=
            (List.takeWhile_sublist _).length_le
          have hlen1 : (s.drop (s.takeWhile Char.isDigit).length).length
              = s.length - (s.takeWhile Char.isDigit).length := List.length_drop _ _
          rw [heq] at hlen1
          simp only [List.length_cons] at hlen1
          have hlen2 := List.length_drop 9 (s2.drop (s2.takeWhile Char.isDigit).length)
          have hlen3 := List.length_drop (s2.takeWhile Char.isDigit).length s2
          rw [hafter, hlen2, hlen3]
          omega
        · exact absurd h (by simp)
    · exact absurd h (by simp)

/-- The master-branch scanner does not depend on its fuel, as long as the
fuel covers the input length. -/
theorem stripSnapAux_fuel (f1 : Nat) :
    ∀ (f2 : Nat) (s : List Char), s.length ≤ f1 → s.length ≤ f2 →
      stripSnapAux f1 s = stripSnapAux f2 s := by
  induction f1 with
  | zero =>
    intro f2 s h1 _
    have hs : s = [] := List.length_eq_zero.mp (Nat.le_zero.mp h1)
    subst hs
    cases f2 <;> rfl
  | succ f1 ih =>
    intro f2 s h1 h2
    match s with
    | [] => cases f2 <;> rfl
    | c :: rest =>
      cases f2 with
      | zero => simp at h2
      | succ f2 =>
        simp only [stripSnapAux]
        simp only [List.length_cons] at h1 h2
        match hm : snapMatch (c :: rest) with
        | some (num, after) =>
          have hlt := snapMatch_after_lt _ _ _ hm
          simp only [List.length_cons] at hlt
          show num ++ stripSnapAux f1 after = num ++ stripSnapAux f2 after
          rw [ih f2 after (by omega) (by omega)]
        | none =>
          show c :: stripSnapAux f1 rest = c :: stripSnapAux f2 rest
          rw [ih f2 rest (by omega) (by omega)]

/-- The master-branch rewrite leaves digit-free content unchanged. -/
theorem stripSnapAux_nodigit :
    ∀ (fuel : Nat) (s : List Char), (∀ c ∈ s, c.isDigit = false) →
      stripSnapAux fuel s = s := by
  intro fuel
  induction fuel with
  | zero => intro s _; rfl
  | succ f ih =>
    intro s h
    match s with
    | [] => rfl
    | c :: rest =>
      have hc := h c (List.mem_cons_self _ _)
      simp only [stripSnapAux, snapMatch_cons_nodigit hc]
      rw [ih rest (fun x hx => h x (List.mem_cons_of_mem _ hx))]

/-- The master-branch scanner copies a digit-free segment unchanged and
continues after it. -/
theorem stripSnapAux_append_nodigit :
    ∀ (pre : List Char), (∀ c ∈ pre, c.isDigit = false) →
      ∀ (f : Nat) (s : List Char),
        stripSnapAux (pre.length + f) (pre ++ s) = pre ++ stripSnapAux f s := by
  intro pre
  induction pre with
  | nil => intro _ f s; simp
  | cons c pre ih =>
    intro h f s
    have hc := h c (List.mem_cons_self _ _)
    have hlen : (c :: pre).length + f = (pre.length + f) + 1 := by
      simp only [List.length_cons]
      omega
    rw [hlen, List.cons_append]
    simp only [stripSnapAux, snapMatch_cons_nodigit hc]
    rw [ih (fun x hx => h x (List.mem_cons_of_mem _ hx)) f s]
    rfl

/-- The master-branch scanner consumes a `<major>.<minor>-SNAPSHOT` token at
the head of the content, emits the stripped token, and continues after
it. -/
theorem stripSnapAux_at_tok (M m f : Nat) (post : List Char) :
    stripSnapAux (f + 1) ((snapTok M m).data ++ post)
      = (snapNum M m).data ++ stripSnapAux f post := by
  obtain ⟨c, t, hct⟩ : ∃ c t, (snapTok M m).data = c :: t := by
    match hval : (snapTok M m).data with
    | [] =>
      rw [snapTok_data] at hval
      rcases List.append_eq_nil.mp hval with ⟨hA, -⟩
      exact absurd hA (natRepr_data_ne_nil M)
    | c :: t => exact ⟨c, t, rfl⟩
  have hmatch := snapMatch_at_tok M m post
  rw [hct] at hmatch ⊢
  rw [List.cons_append] at hmatch ⊢
  simp only [stripSnapAux, hmatch]

/-- General correctness of the master-branch rewrite: on any content
decomposed into digit-free segments alternating with
`<major>.<minor>-SNAPSHOT` tokens, every token — i.e. every occurrence
matching `\d+\.\d+-SNAPSHOT` — loses exactly its `-SNAPSHOT` suffix and
everything else is unchanged. -/
theorem stripSnap_interleave :
    ∀ (parts : List (String × Nat × Nat)) (last : String),
      (∀ q ∈ parts, ∀ c ∈ (q.1).data, c.isDigit = false) →
      (∀ c ∈ last.data, c.isDigit = false) →
      update_artifact_versions_master_file (snapInterleave parts last)
        = snapInterleaveStripped parts last := by
  intro parts
  induction parts with
  | nil =>
    intro last _ hlast
    show String.mk (stripSnapAux last.data.length last.data) = last
    rw [stripSnapAux_nodigit last.data.length last.data hlast]
  | cons q rest ih =>
    intro last hparts hlast
    obtain ⟨seg, M, m⟩ := q
    have hseg : ∀ c ∈ seg.data, c.isDigit = false :=
      hparts (seg, M, m) (List.mem_cons_self _ _)
    have hih := ih last (fun x hx => hparts x (List.mem_cons_of_mem _ hx)) hlast
    have hih2 : stripSnapAux (snapInterleave rest last).data.length
          (snapInterleave rest last).data
        = (snapInterleaveStripped rest last).data := congrArg String.data hih
    have hdata : (seg ++ snapTok M m ++ snapInterleave rest last).data
        = seg.data ++ ((snapTok M m).data ++ (snapInterleave rest last).data) := by
      simp [str_data_append, List.append_assoc]
    simp only [snapInterleave, snapInterleaveStripped, update_artifact_versions_master_file]
    rw [hdata]
    have hlen : (seg.data ++ ((snapTok M m).data ++ (snapInterleave rest last).data)).length
        = seg.data.length
          + ((snapTok M m).data ++ (snapInterleave rest last).data).length := by
      simp
    rw [hlen, stripSnapAux_append_nodigit seg.data hseg]
    have htokpos : 0 < (snapTok M m).data.length := by
      cases hval : (snapTok M m).data with
      | nil =>
        rw [snapTok_data] at hval
        rcases List.append_eq_nil.mp hval with ⟨hA, -⟩
        exact absurd hA (natRepr_data_ne_nil M)
      | cons a l => simp [hval]
    have hsplit : ((snapTok M m).data ++ (snapInterleave rest last).data).length
        = ((snapTok M m).data.length - 1 + (snapInterleave rest last).data.length) + 1 := by
      simp only [List.length_append]
      omega
    rw [hsplit, stripSnapAux_at_tok]
    rw [stripSnapAux_fuel _ _ _ (by omega) (Nat.le_refl _), hih2]
    have hout : (seg ++ snapNum M m ++ snapInterleaveStripped rest last).data
        = seg.data ++ ((snapNum M m).data ++ (snapInterleaveStripped rest last).data) := by
      simp [str_data_append, List.append_assoc]
    show _ = seg ++ snapNum M m ++ snapInterleaveStripped rest last
    rw [← hout]

/-- A token accepted by `parseMajorMinor` is nonempty. -/
theorem parseMajorMinor_ne_empty {tok : String} {M m : Nat}
    (h : parseMajorMinor tok = some (M, m)) : tok.data ≠ [] := by
  intro hnil
  rw [data_eq_nil_iff] at hnil
  subst hnil
  simp [show parseMajorMinor "" = none from by decide] at h

/-- Claim C6: on branch `"dev"` the version editor rewrites every occurrence
of a readable `<major>.<minor>` token in the whole file to
`<major>.<minor+1>-SNAPSHOT`; on branch `"master"` it strips the
`-SNAPSHOT` suffix from every occurrence matching
`<major>.<minor>-SNAPSHOT` — proved for every content decomposed into
digit-free segments alternating with such tokens, each token losing exactly
its suffix (in particular `"2.6-SNAPSHOT"` becomes `"2.6"`); on any other
branch name every manifest file is left unchanged. -/
theorem claim_C6_version_editor (pf : PomFile) (content tok : String) (M m : Nat)
    (h1 : devPomToken pf = some tok)
    (h2 : parseMajorMinor tok = some (M, m)) :
    update_artifact_versions_file "dev" pf content
      = .ok (replaceAllLit tok (toString M ++ "." ++ toString (m + 1) ++ "-SNAPSHOT") content) ∧
    (∀ (parts : List (String × Nat × Nat)) (last : String) (pg : PomFile),
      (∀ q ∈ parts, ∀ c ∈ (q.1).data, c.isDigit = false) →
      (∀ c ∈ last.data, c.isDigit = false) →
      update_artifact_versions_file "master" pg (snapInterleave parts last)
        = .ok (snapInterleaveStripped parts last)) ∧
    (∀ pg : PomFile,
      update_artifact_versions_file "master" pg "<version>2.6-SNAPSHOT</version>"
        = .ok "<version>2.6</version>" ∧
      update_artifact_versions_file "master" pg "a 2.6-SNAPSHOT b 12.34-SNAPSHOT"
        = .ok "a 2.6 b 12.34") ∧
    (∀ (b : String) (pg : PomFile) (c : String), b ≠ "dev" → b ≠ "master" →
      update_artifact_versions_file b pg c = .ok c) := by
  refine ⟨?_, ?_, ?_, ?_⟩
  · unfold update_artifact_versions_file
    rw [if_pos rfl]
    unfold update_artifact_versions_dev_file
    rw [h1]
    apply reSubLit_const
    · exact parseMajorMinor_ne_empty h2
    · unfold update_version_dev
      rw [h2]
  · intro parts last pg hp hl
    unfold update_artifact_versions_file
    rw [if_neg (by decide), if_pos rfl]
    rw [stripSnap_interleave parts last hp hl]
  · intro pg
    constructor
    · unfold update_artifact_versions_file
      rw [if_neg (by decide), if_pos rfl]
      decide
    · unfold update_artifact_versions_file
      rw [if_neg (by decide), if_pos rfl]
      decide
  · intro b pg c hb1 hb2
    unfold update_artifact_versions_file
    rw [if_neg hb1, if_neg hb2]

/-- Witness for claim C6 at the spec's own examples: token `"2.5"` on branch
`"dev"` turns every occurrence into `"2.6-SNAPSHOT"`, and on branch
`"master"` the decomposition `"<version>" ++ "2.6-SNAPSHOT" ++ "</version>"`
is stripped to `"<version>2.6</version>"`. -/
theorem claim_C6_version_editor_witness :
    update_artifact_versions_file "dev" ⟨"pom.xml", some "2.5", none, some "app"⟩
        "<version>2.5</version> 2.5"
      = .ok (replaceAllLit "2.5" (toString 2 ++ "." ++ toString (5 + 1) ++ "-SNAPSHOT")
          "<version>2.5</version> 2.5") ∧
    replaceAllLit "2.5" "2.6-SNAPSHOT" "<version>2.5</version> 2.5"
      = "<version>2.6-SNAPSHOT</version> 2.6-SNAPSHOT" ∧
    update_artifact_versions_file "master" ⟨"pom.xml", some "2.5", none, some "app"⟩
        (snapInterleave [("<version>", 2, 6)] "</version>")
      = .ok (snapInterleaveStripped [("<version>", 2, 6)] "</version>") ∧
    snapInterleave [("<version>", 2, 6)] "</version>" = "<version>2.6-SNAPSHOT</version>" ∧
    snapInterleaveStripped [("<version>", 2, 6)] "</version>" = "<version>2.6</version>" :=
  ⟨(claim_C6_version_editor ⟨"pom.xml", some "2.5", none, some "app"⟩
      "<version>2.5</version> 2.5" "2.5" 2 5 (by decide) (by decide)).1,
   by decide,
   (claim_C6_version_editor ⟨"pom.xml", some "2.5", none, some "app"⟩
      "<version>2.5</version> 2.5" "2.5" 2 5 (by decide) (by decide)).2.1
     [("<version>", 2, 6)] "</version>" ⟨"pom.xml", some "2.5", none, some "app"⟩
     (by decide) (by decide),
   by decide, by decide⟩

/-- Claim C7 counterexample: a version token that fails to parse
(`"2.6-SNAPSHOT"` read on branch `"dev"`) does not leave the file untouched
with processing continuing — the editor raises (uncaught `ValueError`),
rather than returning the unchanged content. -/
theorem claim_C7_counterexample :
    update_artifact_versions_file "dev" ⟨"pom.xml", some "2.6-SNAPSHOT", none, some "app"⟩
        "<version>2.6-SNAPSHOT</version>" = .error () ∧
    ¬ update_artifact_versions_file "dev" ⟨"pom.xml", some "2.6-SNAPSHOT", none, some "app"⟩
        "<version>2.6-SNAPSHOT</version>" = .ok "<version>2.6-SNAPSHOT</version>" := by
  constructor
  · decide
  · decide

/-- Claim C7 amended: a manifest whose version token fails to parse and
occurs in the file makes the dev-branch rewrite raise an uncaught exception
(no content is written, and nothing is caught); inside the merge workflow's
version step such an exception propagates out of the per-project iteration
(aborting the batch) instead of being recorded as a per-project failure. -/
theorem claim_C7_amended (pf : PomFile) (content tok : String)
    (h1 : devPomToken pf = some tok)
    (h2 : parseMajorMinor tok = none)
    (h3 : 1 < (splitLit tok content).length) :
    update_artifact_versions_file "dev" pf content = .error () ∧
    (∀ (e : ProjEnv) (src dst tk : String) (t : List GitOp),
      e.updateRes = .error () → mergeVersionStep src dst tk false e t = .error t) := by
  constructor
  · unfold update_artifact_versions_file
    rw [if_pos rfl]
    unfold update_artifact_versions_dev_file
    rw [h1]
    apply reSubLit_err
    · unfold update_version_dev
      rw [h2]
    · exact h3
  · intro e src dst tk t hupd
    unfold mergeVersionStep
    rw [hupd]
    rfl

/-- Witness for the amended claim C7 at the concrete failing token. -/
theorem claim_C7_amended_witness :
    update_artifact_versions_file "dev" ⟨"pom.xml", some "1.2.3", none, some "app"⟩
        "<version>1.2.3</version>" = .error () ∧
    (∀ (e : ProjEnv) (src dst tk : String) (t : List GitOp),
      e.updateRes = .error () → mergeVersionStep src dst tk false e t = .error t) :=
  claim_C7_amended ⟨"pom.xml", some "1.2.3", none, some "app"⟩
    "<version>1.2.3</version>" "1.2.3" (by decide) (by decide) (by decide)

/-- Claim C4: when the external merge invocation fails (non-zero exit, i.e.
a merge conflict) and the take-theirs checkout, stage-all and fallback
commit all succeed, `merge_source_branch_to_destination_branch` still
returns success, and the synthesized fallback commit message contains both
the source and the destination branch name. -/
theorem claim_C4_conflict_fallback (src dst : String) (e : MergeEnv)
    (h1 : e.mergeRes.exitOk = false)
    (h2 : e.theirsRes.exitOk = true) (h3 : containsFatal e.theirsRes.out = false)
    (h4 : e.addRes.exitOk = true) (h5 : containsFatal e.addRes.out = false)
    (h6 : e.commitRes.exitOk = true) (h7 : containsFatal e.commitRes.out = false) :
    merge_source_branch_to_destination_branch src dst e
      = .ok (true, [.merge src dst, .theirsCheckout, .stageAll,
                    .commit (mergeFallbackMsg src dst)]) ∧
    src.data <:+: (mergeFallbackMsg src dst).data ∧
    dst.data <:+: (mergeFallbackMsg src dst).data := by
  refine ⟨?_, ?_, ?_⟩
  · unfold merge_source_branch_to_destination_branch
    rw [if_neg (by simp [h1]), if_neg (by simp [h2]), if_neg (by simp [h3]),
        if_neg (by simp [h4]), if_neg (by simp [h5]), if_neg (by simp [h6])]
    rw [h7]
    rfl
  · refine ⟨"\"Merged ".data,
      (" into " ++ dst ++ " and resolved conflict with " ++ src ++ " changes.\"").data, ?_⟩
    simp only [mergeFallbackMsg, str_data_append, List.append_assoc]
  · refine ⟨("\"Merged " ++ src ++ " into ").data,
      (" and resolved conflict with " ++ src ++ " changes.\"").data, ?_⟩
    simp only [mergeFallbackMsg, str_data_append, List.append_assoc]

/-- Witness for claim C4 at concrete branches and outputs. -/
theorem claim_C4_conflict_fallback_witness :
    merge_source_branch_to_destination_branch "dev" "master"
        ⟨⟨false, ""⟩, ⟨true, ""⟩, ⟨true, ""⟩, ⟨true, "[master 1a2b] merged"⟩⟩
      = .ok (true, [.merge "dev" "master", .theirsCheckout, .stageAll,
                    .commit (mergeFallbackMsg "dev" "master")]) ∧
    ("dev".data <:+: (mergeFallbackMsg "dev" "master").data) ∧
    ("master".data <:+: (mergeFallbackMsg "dev" "master").data) :=
  claim_C4_conflict_fallback "dev" "master"
    ⟨⟨false, ""⟩, ⟨true, ""⟩, ⟨true, ""⟩, ⟨true, "[master 1a2b] merged"⟩⟩
    rfl rfl (by decide) rfl (by decide) rfl (by decide)

/-! ## Claims about pull and checkout (C8, C5) -/

/-- Successful invocation with empty output. -/
def okCmd : CmdResult := ⟨true, ""⟩

/-- Checkout environment in which everything succeeds and the upstream is
already tracked. -/
def goodCo : CheckoutEnv := ⟨okCmd, true, okCmd⟩

/-- Pull environment: currently on `"b"`, pull succeeds. -/
def goodPull : PullEnv := ⟨⟨true, "b"⟩, okCmd, okCmd⟩

/-- Pull environment for the C8 counterexample: currently on `"dev"`, and
the pull invocation exits non-zero with an output that does not contain
`"fatal"`. -/
def c8PullEnv : PullEnv := ⟨⟨true, "dev"⟩, okCmd, ⟨false, "error: cannot rebase"⟩⟩

/-- Claim C8 counterexample: with the current branch equal to the pulled
branch, a pull whose process exits non-zero but whose output does not
contain `"fatal"` still fails, so success is not equivalent to the absence
of `"fatal"` in the output. -/
theorem claim_C8_counterexample :
    ¬ ((pull_branch "dev" c8PullEnv = true)
        ↔ containsFatal c8PullEnv.pullRes.out = false) := by
  decide

/-- Claim C8 amended: for a branch equal to the current branch, the pull
succeeds iff the pull process exits zero AND its output does not contain
`"fatal"`. -/
theorem claim_C8_amended (branch : String) (e : PullEnv)
    (h : get_current_branch e.curRes = some branch) :
    pull_branch branch e = true
      ↔ (e.pullRes.exitOk = true ∧ containsFatal e.pullRes.out = false) := by
  unfold pull_branch
  rw [h]
  simp only [bne_self_eq_false, Bool.false_eq_true, if_false]
  by_cases hok : e.pullRes.exitOk
  · rw [if_neg (by simp [hok])]
    simp [hok]
  · rw [if_pos (by simp [hok])]
    simp [hok]

/-- Witness for the amended claim C8. -/
theorem claim_C8_amended_witness :
    pull_branch "b" goodPull = true
      ↔ (goodPull.pullRes.exitOk = true ∧ containsFatal goodPull.pullRes.out = false) :=
  claim_C8_amended "b" goodPull (by decide)

/-- Operations attempted by one `fetch_and_checkout_and_pull_branch` call,
whether it returns or raises. -/
def fcpTrace (branch : String) (e : FcpEnv) : List GitOp :=
  match fetch_and_checkout_and_pull_branch branch e with
  | .error t => t
  | .ok (_, t) => t

/-- Environment for the C5 counterexample: the project is on branch `"a"`,
fetch and checkout of `"b"` succeed, and afterwards the current branch is
`"b"`. -/
def c5FcpEnv : FcpEnv := ⟨⟨true, "a"⟩, okCmd, goodCo, ⟨true, "b"⟩, goodPull⟩

/-- Claim C5 counterexample: in the checkout workflow a project that was
not on the destination branch is fetched and checked out successfully and
recorded as successful — but no pull is performed for it, contradicting
"fetched, checked out, and pulled". -/
theorem claim_C5_counterexample :
    (gitCheckoutLoop (fun _ => c5FcpEnv) "b" ["p"]).successful = ["p"] ∧
    ("p", GitOp.pull "b") ∉ (gitCheckoutLoop (fun _ => c5FcpEnv) "b" ["p"]).trace ∧
    (gitCheckoutLoop (fun _ => c5FcpEnv) "b" ["p"]).trace
      = [("p", GitOp.fetch "b"), ("p", GitOp.checkout "b")] := by
  refine ⟨by decide, by decide, by decide⟩

/-- Claim C5 amended: in the checkout workflow, when a project is already
on the destination branch the checkout is skipped and only a pull is
performed; when it is not, the branch is fetched and (on fetch success)
checked out, and no pull is performed for it. -/
theorem claim_C5_amended (branch : String) (e : FcpEnv) :
    (get_current_branch e.curRes1 = some branch →
      fetch_and_checkout_and_pull_branch branch e
        = .ok (pull_branch branch e.pull, [.pull branch])) ∧
    (∀ cur, get_current_branch e.curRes1 = some cur → cur ≠ branch →
      GitOp.pull branch ∉ fcpTrace branch e ∧
      (fcpTrace branch e).head? = some (.fetch branch) ∧
      (fetch_branch e.fetchRes = true → GitOp.checkout branch ∈ fcpTrace branch e)) := by
  constructor
  · intro h
    unfold fetch_and_checkout_and_pull_branch
    rw [h]
    simp
  · intro cur hcur hne
    have hbne : (cur != branch) = true := by simp [hne]
    unfold fcpTrace fetch_and_checkout_and_pull_branch
    rw [hcur]
    simp only [hbne, if_true]
    by_cases hf : fetch_branch e.fetchRes
    · simp only [hf, Bool.not_true, Bool.false_eq_true, if_false]
      by_cases hco : checkout_branch e.co
      · simp only [hco, Bool.not_true, Bool.false_eq_true, if_false]
        match get_current_branch e.curRes2 with
        | none => simp
        | some cur2 =>
          by_cases h2 : (cur2 != branch) = true
          · simp [h2]
          · simp [h2]
      · simp [hco]
    · simp [hf]

/-- Witness for the amended claim C5: both cases at concrete
environments. -/
theorem claim_C5_amended_witness :
    fetch_and_checkout_and_pull_branch "b" ⟨⟨true, "b"⟩, okCmd, goodCo, ⟨true, "b"⟩, goodPull⟩
      = .ok (pull_branch "b" goodPull, [.pull "b"]) ∧
    GitOp.pull "b" ∉ fcpTrace "b" c5FcpEnv :=
  ⟨(claim_C5_amended "b" ⟨⟨true, "b"⟩, okCmd, goodCo, ⟨true, "b"⟩, goodPull⟩).1 (by decide),
   ((claim_C5_amended "b" c5FcpEnv).2 "a" (by decide) (by decide)).1⟩

/-! ## Claims about the status aggregator (C9, C10) -/

/-- Claim C9: a project with zero discovered manifests produces exactly one
row, with the artifact name equal to the project identifier and the version
equal to `"N/A"` (the remaining columns carry the first-row status
values). -/
theorem claim_C9_no_manifest_row (pd project branch0 nUnc nUnp nUnl date : String) :
    get_project_git_meta pd project branch0 nUnc nUnp nUnl date []
      = .ok [{ artifactId := project, version := "N/A", uncommitted := nUnc,
               unpushed := nUnp, unpulled := nUnl, branch := truncBranch branch0,
               latestCommitDate := date, pom := strip_project_dir pd "" }] := rfl

/-- Unfolding equation for `metaRows` on a nonempty pom list. -/
theorem metaRows_cons (pd project b0 nUnc nUnp nUnl date : String) (first : Bool)
    (pf : Option PomFile) (rest : List (Option PomFile)) :
    metaRows pd project b0 nUnc nUnp nUnl date first (pf :: rest)
      = match metaRow pd project b0 nUnc nUnp nUnl date first pf with
        | .error e => .error e
        | .ok r =>
          match metaRows pd project b0 nUnc nUnp nUnl date false rest with
          | .error e => .error e
          | .ok rs => .ok (r :: rs) := by
  rfl

/-- The row built for a pom beyond the first of a project: blank status
columns and a `"-> "`-prefixed artifact name. -/
theorem metaRow_some_false (pd project b0 nUnc nUnp nUnl date : String) (pf : PomFile)
    (aid : String) (haid : pf.artifactId = some aid) :
    ∃ r, metaRow pd project b0 nUnc nUnp nUnl date false (some pf) = .ok r ∧
      r.uncommitted = "" ∧ r.unpushed = "" ∧ r.unpulled = "" ∧ r.branch = "" ∧
      r.artifactId = "-> " ++ aid := by
  simp only [metaRow, haid]
  exact ⟨_, rfl, rfl, rfl, rfl, rfl, rfl⟩

/-- The row built for the first pom of a project: status columns carried
through, branch truncated, no artifact-name marker. -/
theorem metaRow_some_true (pd project b0 nUnc nUnp nUnl date : String) (pf : PomFile)
    (aid : String) (haid : pf.artifactId = some aid) :
    ∃ r, metaRow pd project b0 nUnc nUnp nUnl date true (some pf) = .ok r ∧
      r.uncommitted = nUnc ∧ r.unpushed = nUnp ∧ r.unpulled = nUnl ∧
      r.branch = truncBranch b0 ∧ r.latestCommitDate = date ∧
      r.artifactId = "" ++ aid := by
  simp only [metaRow, haid]
  exact ⟨_, rfl, rfl, rfl, rfl, rfl, rfl, rfl⟩

/-- Rows built after the first all have blank status columns and marked
artifact names. -/
theorem metaRows_false_spec (pd project b0 nUnc nUnp nUnl date : String) :
    ∀ l : List PomFile, (∀ pf ∈ l, pf.artifactId ≠ none) →
    ∃ rows, metaRows pd project b0 nUnc nUnp nUnl date false (l.map some) = .ok rows ∧
      rows.length = l.length ∧
      ∀ r ∈ rows, r.uncommitted = "" ∧ r.unpushed = "" ∧ r.unpulled = "" ∧ r.branch = "" ∧
        ∃ a, r.artifactId = "-> " ++ a := by
  intro l
  induction l with
  | nil => exact fun _ => ⟨[], rfl, rfl, by simp⟩
  | cons pf rest ih =>
    intro hart
    obtain ⟨rows', hrec, hlen, hall⟩ := ih (fun x hx => hart x (List.mem_cons_of_mem _ hx))
    match haid : pf.artifactId with
    | none => exact absurd haid (hart pf (List.mem_cons_self _ _))
    | some aid =>
      obtain ⟨r, hr, hu1, hu2, hu3, hu4, hu5⟩ :=
        metaRow_some_false pd project b0 nUnc nUnp nUnl date pf aid haid
      refine ⟨r :: rows', ?_, by simp [hlen], ?_⟩
      · rw [List.map_cons, metaRows_cons, hr, hrec]
      · intro x hx
        rcases List.mem_cons.mp hx with hx | hx
        · subst hx
          exact ⟨hu1, hu2, hu3, hu4, aid, hu5⟩
        · exact hall x hx

/-- Claim C10: a project with more than one discovered manifest produces
exactly one row per manifest; after the display adjustment of
`print_version_status`, only the first row carries the status, branch and
latest-commit-date values, and every later row is blank in those columns
with a `"-> "` nesting marker on its artifact name. -/
theorem claim_C10_nested_rows (pd project b0 nUnc nUnp nUnl date : String)
    (poms : List PomFile)
    (hlen : 1 < poms.length)
    (hart : ∀ pf ∈ poms, pf.artifactId ≠ none) :
    ∃ rows, get_project_git_meta pd project b0 nUnc nUnp nUnl date poms = .ok rows ∧
      rows.length = poms.length ∧
      ∃ h rest, displayRows rows = h :: rest ∧
        h.uncommitted = nUnc ∧ h.unpushed = nUnp ∧ h.unpulled = nUnl ∧
        h.branch = truncBranch b0 ∧ h.latestCommitDate = date ∧
        rest ≠ [] ∧
        ∀ r ∈ rest, r.uncommitted = "" ∧ r.unpushed = "" ∧ r.unpulled = "" ∧
          r.branch = "" ∧ r.latestCommitDate = "" ∧ ∃ a, r.artifactId = "-> " ++ a := by
  obtain ⟨pf, rest, rfl⟩ : ∃ pf rest, poms = pf :: rest := by
    cases poms with
    | nil => simp at hlen
    | cons a l => exact ⟨a, l, rfl⟩
  have hrestlen : 0 < rest.length := by
    simp only [List.length_cons] at hlen
    omega
  match haid : pf.artifactId with
  | none => exact absurd haid (hart pf (List.mem_cons_self _ _))
  | some aid =>
    obtain ⟨h, hh, hh1, hh2, hh3, hh4, hh5, hh6⟩ :=
      metaRow_some_true pd project b0 nUnc nUnp nUnl date pf aid haid
    obtain ⟨rows', hrec, hlen', hall⟩ :=
      metaRows_false_spec pd project b0 nUnc nUnp nUnl date rest
        (fun x hx => hart x (List.mem_cons_of_mem _ hx))
    have hmain : get_project_git_meta pd project b0 nUnc nUnp nUnl date (pf :: rest)
        = .ok (h :: rows') := by
      unfold get_project_git_meta
      rw [if_neg (by simp)]
      rw [List.map_cons, metaRows_cons, hh, hrec]
    have hdisp : displayRows (h :: rows')
        = h :: rows'.map (fun x => { x with branch := "", latestCommitDate := "" }) := rfl
    refine ⟨h :: rows', hmain, by simp [hlen'], h,
      rows'.map (fun x => { x with branch := "", latestCommitDate := "" }),
      hdisp, hh1, hh2, hh3, hh4, hh5, ?_, ?_⟩
    · intro hnil
      have hlnil := congrArg List.length hnil
      simp only [List.length_map, List.length_nil] at hlnil
      omega
    · intro r hr
      obtain ⟨x, hx, hxr⟩ := List.mem_map.mp hr
      obtain ⟨ha, hb, hc, hd, a, he⟩ := hall x hx
      subst hxr
      exact ⟨ha, hb, hc, rfl, rfl, a, he⟩

/-- Witness for claim C10 on a concrete two-manifest project. -/
theorem claim_C10_nested_rows_witness :
    ∃ rows, get_project_git_meta "D" "proj" "dev" "0" "0" "" "today"
        [⟨"D/pom.xml", some "1.0", none, some "parent-mod"⟩,
         ⟨"D/sub/pom.xml", none, some "1.0", some "sub-mod"⟩] = .ok rows ∧
      rows.length = 2 ∧
      ∃ h rest, displayRows rows = h :: rest ∧
        h.uncommitted = "0" ∧ h.unpushed = "0" ∧ h.unpulled = "" ∧
        h.branch = truncBranch "dev" ∧ h.latestCommitDate = "today" ∧
        rest ≠ [] ∧
        ∀ r ∈ rest, r.uncommitted = "" ∧ r.unpushed = "" ∧ r.unpulled = "" ∧
          r.branch = "" ∧ r.latestCommitDate = "" ∧ ∃ a, r.artifactId = "-> " ++ a :=
  claim_C10_nested_rows "D" "proj" "dev" "0" "0" "" "today"
    [⟨"D/pom.xml", some "1.0", none, some "parent-mod"⟩,
     ⟨"D/sub/pom.xml", none, some "1.0", some "sub-mod"⟩]
    (by decide) (by decide)

/-! ## Claims about the merge workflow (C1, C2, C3) -/

/-- Conjunction of the three verification-loop precondition checks for one
project. -/
def mergePrecondOk (env : String → ProjEnv) (src dst p : String) : Bool :=
  has_no_changes_in_working_directory (env p).statusRes &&
  has_no_commits_to_push ((env p).pushCount src) &&
  has_no_commits_to_push ((env p).pushCount dst)

/-- The verification loop records exactly the projects failing a
precondition, in order: each failure only skips that project's remaining
checks and the loop continues. -/
theorem mergeVerifyFailed_eq_filter (env : String → ProjEnv) (src dst : String) :
    ∀ l, mergeVerifyFailed env src dst l
      = l.filter (fun p => !mergePrecondOk env src dst p) := by
  intro l
  induction l with
  | nil => rfl
  | cons p rest ih =>
    simp only [mergeVerifyFailed, List.filter_cons]
    by_cases h1 : has_no_changes_in_working_directory (env p).statusRes
    · by_cases h2 : has_no_commits_to_push ((env p).pushCount src)
      · by_cases h3 : has_no_commits_to_push ((env p).pushCount dst)
        · simp [mergePrecondOk, h1, h2, h3, ih]
        · simp [mergePrecondOk, h1, h2, h3, ih]
      · simp [mergePrecondOk, h1, h2, ih]
    · simp [mergePrecondOk, h1, ih]

/-- Fetch-checkout-pull environment for a project already on branch `b`
where everything succeeds. -/
def goodFcpOn (b : String) : FcpEnv :=
  ⟨⟨true, b⟩, okCmd, goodCo, ⟨true, b⟩, ⟨⟨true, b⟩, okCmd, okCmd⟩⟩

/-- Project environment in which every check passes and every operation
succeeds (for branch name `"dev"`). -/
def cleanProjEnv : ProjEnv :=
  { statusRes := okCmd
    unpushedLogRes := okCmd
    unpulledFetchOk := true
    unpulledCount := some 0
    pushCount := fun _ => some 0
    fcpSrc := goodFcpOn "dev"
    fcpDst := goodFcpOn "dev"
    merge := ⟨⟨true, "Merge made by the recursive strategy."⟩, okCmd, okCmd, okCmd⟩
    updateRes := .ok true
    stageRes := okCmd
    versionRes := .ok "1.0"
    amendRes := okCmd }

/-- Project environment with a dirty working tree (everything else as in
`cleanProjEnv`). -/
def dirtyProjEnv : ProjEnv :=
  { cleanProjEnv with statusRes := ⟨true, "M a.txt"⟩ }

/-- Environment mapping project `"p"` to the dirty environment and every
other project to the clean one. -/
def c1cexEnv : String → ProjEnv :=
  fun p => if p = "p" then dirtyProjEnv else cleanProjEnv

/-- Claim C1 counterexample: with project `"p"` failing the
clean-working-directory precondition and project `"q"` passing everything,
the main phase of the merge workflow exits the whole batch
(`exit(0)` at git_merge.py:69) instead of finishing with `"p"` failed and
`"q"` processed — no mutation is performed for any project. -/
theorem claim_C1_counterexample :
    gitMergeMainPhase ["p", "q"] c1cexEnv "dev" "dev" "T-1" false
      = (.exitVerification ["p"], []) ∧
    ¬ ∃ s f t, gitMergeMainPhase ["p", "q"] c1cexEnv "dev" "dev" "T-1" false
        = (.finished s f, t) ∧ "p" ∈ f ∧ "q" ∈ s := by
  constructor
  · decide
  · rintro ⟨s, f, t, heq, -, -⟩
    rw [show gitMergeMainPhase ["p", "q"] c1cexEnv "dev" "dev" "T-1" false
        = (.exitVerification ["p"], []) from by decide] at heq
    exact absurd (congrArg Prod.fst heq) (by simp)

/-- Claim C1 amended: a project failing a precondition check in the
verification loop is recorded as failed and the loop continues checking the
remaining projects (the failed list is exactly the ordered filter of
failing projects); however, any recorded precondition failure terminates
the whole batch before any mutation — the main phase exits with the failed
list and an empty operation trace. -/
theorem claim_C1_amended (projects : List String) (env : String → ProjEnv)
    (src dst ticket : String) (skipv : Bool)
    (h : mergeVerifyFailed env src dst projects ≠ []) :
    mergeVerifyFailed env src dst projects
      = projects.filter (fun p => !mergePrecondOk env src dst p) ∧
    gitMergeMainPhase projects env src dst ticket skipv
      = (.exitVerification (mergeVerifyFailed env src dst projects), []) := by
  refine ⟨mergeVerifyFailed_eq_filter env src dst projects, ?_⟩
  have hne : (mergeVerifyFailed env src dst projects).length ≠ 0 := by
    intro hh
    exact h (List.length_eq_zero.mp hh)
  simp only [gitMergeMainPhase]
  rw [if_pos (by simpa [bne_iff_ne] using hne)]

/-- Witness for the amended claim C1. -/
theorem claim_C1_amended_witness :
    mergeVerifyFailed c1cexEnv "dev" "dev" ["p", "q"]
      = ["p", "q"].filter (fun p => !mergePrecondOk c1cexEnv "dev" "dev" p) ∧
    gitMergeMainPhase ["p", "q"] c1cexEnv "dev" "dev" "T-1" false
      = (.exitVerification (mergeVerifyFailed c1cexEnv "dev" "dev" ["p", "q"]), []) :=
  claim_C1_amended ["p", "q"] c1cexEnv "dev" "dev" "T-1" false (by decide)

/-- Outcomes produced by the initial pre-check loop's `exit(0)`. -/
def isPreCheckExit : MergeOutcome → Bool
  | .exitUncommitted _ => true
  | .exitUnpushed _ => true
  | .exitUnpulled _ => true
  | _ => false

/-- A dirty project in the pre-check loop: the loop always exits, and no
operation is ever traced for that project. -/
theorem mergePreCheck_dirty (env : String → ProjEnv) (p : String)
    (hdirty : pyStrip ((env p).statusRes.out) ≠ "") :
    ∀ l, p ∈ l →
      (mergePreCheck env l).1 ≠ none ∧
      ∀ o : GitOp, (p, o) ∉ (mergePreCheck env l).2 := by
  intro l
  induction l with
  | nil => intro h; cases h
  | cons q rest ih =>
    intro hmem
    by_cases hq1 : (count_uncommitted_changes (env q).statusRes).truthy
    · simp [mergePreCheck, hq1]
    · have hpq : p ≠ q := by
        intro he
        subst he
        exact hq1 (count_uncommitted_truthy_of_dirty hdirty)
      have hmem' : p ∈ rest := by
        rcases List.mem_cons.mp hmem with he | hm
        · exact absurd he hpq
        · exact hm
      by_cases hq2 : (count_unpushed_commits (env q).unpushedLogRes).truthy
      · simp [mergePreCheck, hq1, hq2]
      · by_cases hq3 :
          (count_unpulled_commits (env q).unpulledFetchOk (env q).unpulledCount != "") = true
        · simp only [mergePreCheck, hq1, hq2, hq3]
          refine ⟨by simp, ?_⟩
          intro o
          simp [hpq]
        · obtain ⟨ih1, ih2⟩ := ih hmem'
          simp only [mergePreCheck, hq1, hq2, hq3]
          refine ⟨by simpa using ih1, ?_⟩
          intro o
          simp only [Bool.false_eq_true, if_false, List.mem_cons]
          rintro (he | hm)
          · exact hpq (congrArg Prod.fst he)
          · exact ih2 o hm

/-- Claim C2 counterexample: a project with a dirty working tree makes the
merge workflow `exit(0)` in the initial pre-check loop — the project is
*not* recorded as failed (the run never reaches the phase that records
failures), although indeed no fetch/checkout/merge/commit is performed. -/
theorem claim_C2_counterexample :
    gitMerge ["p"] (fun _ => dirtyProjEnv) "Y" "dev" "dev" "T-1" false
      = (.exitUncommitted "p", []) ∧
    ¬ ∃ s f t, gitMerge ["p"] (fun _ => dirtyProjEnv) "Y" "dev" "dev" "T-1" false
        = (.finished s f, t) ∧ "p" ∈ f := by
  constructor
  · decide
  · rintro ⟨s, f, t, heq, -⟩
    rw [show gitMerge ["p"] (fun _ => dirtyProjEnv) "Y" "dev" "dev" "T-1" false
        = (.exitUncommitted "p", []) from by decide] at heq
    exact absurd (congrArg Prod.fst heq) (by simp)

/-- Claim C2 amended: for every project with a dirty working tree the merge
workflow performs no git call at all for that project (in particular no
fetch, checkout, merge or commit), but it does not record the project as
failed either — the whole script terminates with one of the three pre-check
exits before the failure-recording phase is reached. -/
theorem claim_C2_amended (projects : List String) (env : String → ProjEnv)
    (cont src dst tk : String) (sv : Bool) (p : String)
    (hmem : p ∈ projects)
    (hdirty : pyStrip ((env p).statusRes.out) ≠ "") :
    isPreCheckExit (gitMerge projects env cont src dst tk sv).1 = true ∧
    ∀ o : GitOp, (p, o) ∉ (gitMerge projects env cont src dst tk sv).2 := by
  obtain ⟨h1, h2⟩ := mergePreCheck_dirty env p hdirty projects hmem
  match hpc : mergePreCheck env projects with
  | (some ex, t) =>
    have hgm : gitMerge projects env cont src dst tk sv = (ex.toOutcome, t) := by
      unfold gitMerge
      rw [hpc]
    rw [hpc] at h2
    rw [hgm]
    constructor
    · cases ex <;> rfl
    · exact fun o => h2 o
  | (none, t) =>
    rw [hpc] at h1
    exact absurd rfl h1

/-- Witness for the amended claim C2. -/
theorem claim_C2_amended_witness :
    isPreCheckExit (gitMerge ["p"] (fun _ => dirtyProjEnv) "Y" "dev" "dev" "T-1" false).1
      = true ∧
    ∀ o : GitOp, ("p", o) ∉ (gitMerge ["p"] (fun _ => dirtyProjEnv) "Y" "dev" "dev" "T-1" false).2 :=
  claim_C2_amended ["p"] (fun _ => dirtyProjEnv) "Y" "dev" "dev" "T-1" false "p"
    (List.mem_cons_self _ _) (by decide)

/-- Claim C3: in the merge workflow's initial pre-check loop, whenever the
unpulled-commit count command succeeds for a project (necessarily the first
project, since the loop can never pass any project), the script exits with
the unpulled-commits error before the confirmation prompt — for every
possible count `n`, including `n = 0` — because `count_unpulled_commits`
returns the decimal numeral string of the count, which is nonempty and
hence truthy. -/
theorem claim_C3_unpulled_always_exits (p : String) (rest : List String)
    (env : String → ProjEnv) (cont src dst tk : String) (sv : Bool) (n : Nat)
    (h1 : (count_uncommitted_changes (env p).statusRes).truthy = false)
    (h2 : (count_unpushed_commits (env p).unpushedLogRes).truthy = false)
    (h3 : (env p).unpulledFetchOk = true)
    (h4 : (env p).unpulledCount = some n) :
    count_unpulled_commits (env p).unpulledFetchOk (env p).unpulledCount = toString n ∧
    toString n ≠ "" ∧
    gitMerge (p :: rest) env cont src dst tk sv = (.exitUnpulled p, [(p, .fetchAll)]) := by
  have hcount : count_unpulled_commits (env p).unpulledFetchOk (env p).unpulledCount
      = toString n := by
    unfold count_unpulled_commits
    rw [h3, h4]
    rfl
  refine ⟨hcount, natToString_ne_empty n, ?_⟩
  have hne : (count_unpulled_commits (env p).unpulledFetchOk (env p).unpulledCount != "")
      = true := by
    rw [hcount]
    simp [bne_iff_ne, natToString_ne_empty n]
  have hpc : mergePreCheck env (p :: rest) = (some (.unpulled p), [(p, .fetchAll)]) := by
    simp only [mergePreCheck]
    rw [if_neg (by simp [h1]), if_neg (by simp [h2]), if_pos hne]
  unfold gitMerge
  rw [hpc]
  rfl

/-- Witness for claim C3 with a count of zero unpulled commits: the script
still exits. -/
theorem claim_C3_unpulled_always_exits_witness :
    count_unpulled_commits ((fun _ => cleanProjEnv) "p").unpulledFetchOk
        ((fun _ => cleanProjEnv) "p").unpulledCount = toString 0 ∧
    toString 0 ≠ "" ∧
    gitMerge ["p"] (fun _ => cleanProjEnv) "Y" "dev" "dev" "T-1" false
      = (.exitUnpulled "p", [("p", .fetchAll)]) :=
  claim_C3_unpulled_always_exits "p" [] (fun _ => cleanProjEnv) "Y" "dev" "dev" "T-1" false 0
    (by decide) (by decide) (by decide) (by decide)

end GitPyUtils
